import Mathlib

/-!
Verification development for the element-interaction core of the rod
browser-automation client (element.go).  Protocol calls, script
evaluations and input-device operations are external collaborators; each
operation is embedded as a function over an environment that records the
outcome every collaborator call would produce, and, where the claims are
about ordering or resource pairing, the embedding also returns the trace
of collaborator events that the Go code would issue.
-/

namespace Rod

/-- Errors are abstract: the Go code never inspects an error value, it only
compares it against nil (and against the io.EOF sentinel, which is modelled
separately as a distinct result constructor). -/
abbrev Err := ℕ

/-- Box represents the element bounding rect (struct Box, element.go):
four float64 fields top, left, width, height.  Coordinates are modelled
as rationals; Go struct comparison of two Box values is field-wise. -/
structure Box where
  top : ℚ
  left : ℚ
  width : ℚ
  height : ℚ

deriving instance DecidableEq, Repr for Box

/-! ## Geometry resolver: BoxE (element.go lines 368-379)

proto.DOMGetBoxModel returns a model whose Content field is the content
quadrilateral, a flat array of 8 numbers.  BoxE reads Content[0],
Content[1], Content[2] and Content[7]. -/

/-- The Content array of a box-model query result: 8 scalar entries,
c0..c7, mirroring res.Model.Content[0..7]. -/
structure Quad where
  c0 : ℚ
  c1 : ℚ
  c2 : ℚ
  c3 : ℚ
  c4 : ℚ
  c5 : ℚ
  c6 : ℚ
  c7 : ℚ

/-- BoxE, translated from element.go: on a successful box-model query it
builds Box with Top = Content[1], Left = Content[0],
Width = Content[2] - Content[0], Height = Content[7] - Content[1];
a query error propagates. -/
def BoxE (res : Except Err Quad) : Except Err Box :=
  match res with
  | .error e => .error e
  | .ok m => .ok { top := m.c1, left := m.c0, width := m.c2 - m.c0, height := m.c7 - m.c1 }

/-- A corner point of the quadrilateral, for stating the claim in its own
vocabulary of ordered corner coordinates. -/
structure Corner where
  x : ℚ
  y : ℚ

/-- The ordered quadrilateral of corner coordinates flattened into the
Content array: x0, y0, x1, y1, x2, y2, x3, y3. -/
def flattenQuad (p0 p1 p2 p3 : Corner) : Quad :=
  { c0 := p0.x, c1 := p0.y, c2 := p1.x, c3 := p1.y
    c4 := p2.x, c5 := p2.y, c6 := p3.x, c7 := p3.y }

/-- The box the claim describes, built from the corner points: left is the
first X, top is the first Y, width is the third coordinate value (the
second corner's X) minus the first X, height is the eighth coordinate
value (the fourth corner's Y) minus the first Y. -/
def boxFromCorners (p0 p1 _p2 p3 : Corner) : Box :=
  { top := p0.y, left := p0.x, width := p1.x - p0.x, height := p3.y - p0.y }

/-- C8: for every successful box-model query returning the ordered
quadrilateral p0 p1 p2 p3, BoxE returns the box with left = first X,
top = first Y, width = third coordinate value minus first X and
height = eighth coordinate value minus first Y. -/
theorem BoxE_corners (p0 p1 p2 p3 : Corner) :
    BoxE (.ok (flattenQuad p0 p1 p2 p3)) = .ok (boxFromCorners p0 p1 p2 p3) := rfl

/-! ## Interaction sequencer: ClickE (element.go lines 49-76)

ClickE runs WaitVisibleE, then ScrollIntoViewE, then BoxE, then
el.page.Mouse.MoveE(x, y, 1) with x = box.Left + box.Width/2 and
y = box.Top + box.Height/2, then el.page.Mouse.ClickE(button); each
failing step aborts the chain with its error.  The Mouse collaborator
(lib/input) is external; the embedding records the mouse events issued. -/

/-- An event issued to the mouse input collaborator. -/
inductive MouseEvent where
  | moveMouse (x y : ℚ) (steps : ℕ)
  | buttonEvent (button : ℕ)

deriving instance DecidableEq, Repr for MouseEvent

/-- Outcomes the collaborators would produce for the steps of one ClickE
call: the wait-visible poll, the scroll-into-view protocol call, the
box-model query, and the two mouse operations. -/
structure ClickEnv where
  waitVisible : Except Err Unit
  scrollIntoView : Except Err Unit
  box : Except Err Quad
  move : Except Err Unit
  click : Except Err Unit

/-- ClickE translated from element.go: the pair of (mouse events issued,
final outcome).  A mouse event appears in the trace when its call is
issued, whether or not that call then fails. -/
def ClickE (env : ClickEnv) (button : ℕ) : List MouseEvent × Option Err :=
  match env.waitVisible with
  | .error e => ([], some e)
  | .ok _ =>
    match env.scrollIntoView with
    | .error e => ([], some e)
    | .ok _ =>
      match BoxE env.box with
      | .error e => ([], some e)
      | .ok box =>
        let x := box.left + box.width / 2
        let y := box.top + box.height / 2
        match env.move with
        | .error e => ([.moveMouse x y 1], some e)
        | .ok _ =>
          match env.click with
          | .error e => ([.moveMouse x y 1, .buttonEvent button], some e)
          | .ok _ => ([.moveMouse x y 1, .buttonEvent button], none)

/-- C5: whenever ClickE reaches a box, the issued event trace starts with
MoveMouse at the click point (left + width/2, top + height/2) with a
single intermediate step, the button event (if issued at all) comes
strictly after it, and for the box {top 10, left 20, width 100,
height 50} the click point is (70, 35). -/
theorem ClickE_click_point (env : ClickEnv) (button : ℕ) (m : Quad)
    (hwv : env.waitVisible = .ok ()) (hsc : env.scrollIntoView = .ok ())
    (hbox : env.box = .ok m) :
    (∃ box, BoxE env.box = .ok box ∧
      (ClickE env button).1 =
        MouseEvent.moveMouse (box.left + box.width / 2) (box.top + box.height / 2) 1 ::
          (match env.move with
            | .ok _ => [MouseEvent.buttonEvent button]
            | .error _ => []) ∧
      (box = { top := 10, left := 20, width := 100, height := 50 } →
        box.left + box.width / 2 = 70 ∧ box.top + box.height / 2 = 35)) := by
  have hbx : BoxE env.box =
      .ok { top := m.c1, left := m.c0, width := m.c2 - m.c0, height := m.c7 - m.c1 } := by
    rw [hbox]; rfl
  refine ⟨{ top := m.c1, left := m.c0, width := m.c2 - m.c0, height := m.c7 - m.c1 },
    hbx, ?_, ?_⟩
  · show (ClickE env button).1 = _
    unfold ClickE
    rw [hwv, hsc, hbox]
    cases env.move <;> cases env.click <;> rfl
  · intro hb
    have h0 : m.c0 = 20 := by have := congrArg Box.left hb; simpa using this
    have h1 : m.c1 = 10 := by have := congrArg Box.top hb; simpa using this
    have h2 : m.c2 - m.c0 = 100 := by have := congrArg Box.width hb; simpa using this
    have h7 : m.c7 - m.c1 = 50 := by have := congrArg Box.height hb; simpa using this
    constructor
    · show m.c0 + (m.c2 - m.c0) / 2 = 70
      linarith
    · show m.c1 + (m.c7 - m.c1) / 2 = 35
      linarith

/-- A concrete environment in which every step succeeds and the box-model
content quadrilateral describes the box {top 10, left 20, width 100,
height 50}: corners (20,10), (120,10), (120,60), (20,60). -/
def clickEnvA : ClickEnv :=
  { waitVisible := .ok (), scrollIntoView := .ok ()
    box := .ok (flattenQuad ⟨20, 10⟩ ⟨120, 10⟩ ⟨120, 60⟩ ⟨20, 60⟩)
    move := .ok (), click := .ok () }

/-- C5 witness: on the concrete environment, ClickE issues
MoveMouse(70, 35, 1) strictly before the button event. -/
theorem ClickE_click_point_witness :
    ∃ box, BoxE clickEnvA.box = .ok box ∧
      (ClickE clickEnvA 0).1 =
        MouseEvent.moveMouse (box.left + box.width / 2) (box.top + box.height / 2) 1 ::
          (match clickEnvA.move with
            | .ok _ => [MouseEvent.buttonEvent 0]
            | .error _ => []) ∧
      (box = { top := 10, left := 20, width := 100, height := 50 } →
        box.left + box.width / 2 = 70 ∧ box.top + box.height / 2 = 35) :=
  ClickE_click_point clickEnvA 0 (flattenQuad ⟨20, 10⟩ ⟨120, 10⟩ ⟨120, 60⟩ ⟨20, 60⟩)
    rfl rfl rfl

/-! ## Interaction sequencer: InputE (element.go lines 126-147)

InputE runs WaitVisibleE, then FocusE, then Keyboard.InsertTextE(text),
then evaluates the inputEvent helper script; each failing step aborts the
chain with its error.  Text is modelled as a byte list. -/

/-- One step of the InputE chain. -/
inductive InputStep where
  | waitVisible
  | focus
  | insertText (text : List ℕ)
  | dispatchInputEvent

deriving instance DecidableEq, Repr for InputStep

/-- Outcomes the collaborators would produce for the steps of one InputE
call: the wait-visible poll, the focus sequence, the keyboard text
insertion, and the synthetic input-event evaluation. -/
structure InputEnv where
  waitVisible : Except Err Unit
  focus : Except Err Unit
  insertText : Except Err Unit
  dispatchInputEvent : Except Err Unit

/-- InputE translated from element.go: the pair of (steps executed, final
outcome); the step at which the chain fails is the last executed one. -/
def InputE (env : InputEnv) (text : List ℕ) : List InputStep × Option Err :=
  match env.waitVisible with
  | .error e => ([.waitVisible], some e)
  | .ok _ =>
    match env.focus with
    | .error e => ([.waitVisible, .focus], some e)
    | .ok _ =>
      match env.insertText with
      | .error e => ([.waitVisible, .focus, .insertText text], some e)
      | .ok _ =>
        match env.dispatchInputEvent with
        | .error e =>
          ([.waitVisible, .focus, .insertText text, .dispatchInputEvent], some e)
        | .ok _ =>
          ([.waitVisible, .focus, .insertText text, .dispatchInputEvent], none)

/-- The claim's notion of a strictly ordered chain of blocking steps:
run the steps in the given order; the first failing step aborts the whole
chain immediately with that step's error, and no later step is executed. -/
def runChain : List (InputStep × Except Err Unit) → List InputStep × Option Err
  | [] => ([], none)
  | (step, res) :: rest =>
    match res with
    | .error e => ([step], some e)
    | .ok _ =>
      let tail := runChain rest
      (step :: tail.1, tail.2)

/-- The ordered chain the claim prescribes for Input(text). -/
def inputChain (env : InputEnv) (text : List ℕ) : List (InputStep × Except Err Unit) :=
  [(.waitVisible, env.waitVisible), (.focus, env.focus),
    (.insertText text, env.insertText), (.dispatchInputEvent, env.dispatchInputEvent)]

/-- C7: InputE executes exactly the ordered chain WaitVisible, Focus,
InsertText(text), input-event dispatch, aborting immediately with the
first failing step's error and executing no later step — it coincides
with the generic first-failure chain runner on that chain. -/
theorem InputE_ordered_chain (env : InputEnv) (text : List ℕ) :
    InputE env text = runChain (inputChain env text) := by
  unfold InputE runChain inputChain
  cases env.waitVisible <;> cases env.focus <;>
    cases env.insertText <;> cases env.dispatchInputEvent <;> rfl

/-! ## Resource extractor: ResourceE (element.go lines 402-437)

ResourceE evaluates the resource helper script to read the element's
source URL; then `defer el.page.EnableDomain(&proto.PageEnable{})()`
enables the Page domain and defers its restore; then it looks up the
frame ID, fetches the resource content for (frameID, URL), and base64
decodes the content exactly when the response reports Base64Encoded,
returning the content bytes verbatim otherwise.

EnableDomain lives in page.go, outside the provided sources.  Modelled
from the spec: a scoped acquisition that toggles the domain on
immediately and returns a restore action, which the defer runs exactly
once on every exit path taken after the defer statement; the embedding
records the toggle calls as enable and disable trace events. -/

/-- A toggle call on the page's resource-enable domain. -/
inductive ResEvent where
  | enable
  | disable

deriving instance DecidableEq, Repr for ResEvent

/-- Outcomes the collaborators would produce during one ResourceE call:
the source-URL script evaluation, the frame-ID lookup, the content fetch
keyed by frame ID and URL (content bytes plus the Base64Encoded flag),
and the base64 decoder. -/
structure ResourceEnv where
  evalSrc : Except Err (List ℕ)
  frameID : Except Err ℕ
  fetch : ℕ → List ℕ → Except Err (List ℕ × Bool)
  decode : List ℕ → Except Err (List ℕ)

/-- ResourceE translated from element.go: the pair of (domain toggle
events issued, final outcome). -/
def ResourceE (env : ResourceEnv) : List ResEvent × Except Err (List ℕ) :=
  match env.evalSrc with
  | .error e => ([], .error e)
  | .ok src =>
    match env.frameID with
    | .error e => ([.enable, .disable], .error e)
    | .ok fid =>
      match env.fetch fid src with
      | .error e => ([.enable, .disable], .error e)
      | .ok (data, b64) =>
        if b64 then
          match env.decode data with
          | .error e => ([.enable, .disable], .error e)
          | .ok bin => ([.enable, .disable], .ok bin)
        else ([.enable, .disable], .ok data)

/-- C9: once the source URL evaluation has succeeded the domain is
enabled and then disabled exactly once on every exit path — frame-ID
failure, fetch failure, decode failure and success alike — and the
fetched content is run through the base64 decoder exactly when the
response reports that encoding, being returned verbatim otherwise. -/
theorem ResourceE_scoped_disable (env : ResourceEnv) :
    ((∃ s, env.evalSrc = .ok s) → (ResourceE env).1 = [.enable, .disable]) ∧
      (∀ s fid data, env.evalSrc = .ok s → env.frameID = .ok fid →
        (env.fetch fid s = .ok (data, true) → (ResourceE env).2 = env.decode data) ∧
          (env.fetch fid s = .ok (data, false) → (ResourceE env).2 = .ok data)) := by
  constructor
  · rintro ⟨s, hs⟩
    cases hf : env.frameID with
    | error e => simp [ResourceE, hs, hf]
    | ok fid =>
      cases hc : env.fetch fid s with
      | error e => simp [ResourceE, hs, hf, hc]
      | ok pair =>
        obtain ⟨data, b64⟩ := pair
        cases b64 with
        | false => simp [ResourceE, hs, hf, hc]
        | true =>
          cases hd : env.decode data with
          | error e => simp [ResourceE, hs, hf, hc, hd]
          | ok bin => simp [ResourceE, hs, hf, hc, hd]
  · intro s fid data hs hfid
    constructor
    · intro hfetch
      cases hd : env.decode data with
      | error e => simp [ResourceE, hs, hfid, hfetch, hd]
      | ok bin => simp [ResourceE, hs, hfid, hfetch, hd]
    · intro hfetch
      simp [ResourceE, hs, hfid, hfetch]

/-- A concrete environment for ResourceE: the source URL resolves, the
frame ID resolves, the fetch succeeds with plain (non-base64) content
bytes [7, 8], and the decoder would fail if it were ever consulted. -/
def resourceEnvA : ResourceEnv :=
  { evalSrc := .ok [1], frameID := .ok 5
    fetch := fun _ _ => .ok ([7, 8], false)
    decode := fun _ => .error 99 }

/-- C9 witness: on the concrete environment the toggle trace is exactly
enable then disable, and the plain content is returned verbatim without
consulting the failing decoder. -/
theorem ResourceE_scoped_disable_witness :
    (ResourceE resourceEnvA).1 = [.enable, .disable] ∧
      (ResourceE resourceEnvA).2 = .ok [7, 8] :=
  ⟨(ResourceE_scoped_disable resourceEnvA).1 ⟨[1], rfl⟩,
    ((ResourceE_scoped_disable resourceEnvA).2 [1] 5 [7, 8] rfl rfl).2 rfl⟩

/-! ## ShadowRootE (element.go lines 248-263)

ShadowRootE describes the node at depth 1, then reads
node.ShadowRoots[0].BackendNodeID unconditionally — a Go slice index
that panics when ShadowRoots is empty — and resolves that backend node
ID to a new object handle. -/

/-- The part of the described DOM node ShadowRootE reads: the backend
node IDs of its ShadowRoots list. -/
structure DOMNode where
  shadowRoots : List ℕ

/-- Outcomes the collaborators would produce during one ShadowRootE call:
the describe-node query and the backend-node-ID resolution. -/
structure ShadowEnv where
  describe : Except Err DOMNode
  resolveBackendNode : ℕ → Except Err ℕ

/-- Result of running a Go function that can return a value, return an
error, or panic at runtime. -/
inductive GoResult (α : Type) where
  | ok (a : α)
  | err (e : Err)
  | panicked

deriving instance DecidableEq, Repr for GoResult

/-- ShadowRootE translated from element.go; the unconditional slice index
ShadowRoots[0] is the panic point when the list is empty. -/
def ShadowRootE (env : ShadowEnv) : GoResult ℕ :=
  match env.describe with
  | .error e => .err e
  | .ok node =>
    match node.shadowRoots.head? with
    | none => .panicked
    | some bid =>
      match env.resolveBackendNode bid with
      | .error e => .err e
      | .ok objID => .ok objID

/-- C10: when the describe query succeeds, ShadowRootE panics exactly on
the elements whose described node has an empty ShadowRoots list; with at
least one shadow root the unconditional first-entry access is in bounds
and the call never panics. -/
theorem ShadowRootE_first_entry (env : ShadowEnv) (node : DOMNode)
    (h : env.describe = .ok node) :
    (node.shadowRoots = [] → ShadowRootE env = .panicked) ∧
      (node.shadowRoots ≠ [] → ShadowRootE env ≠ .panicked) := by
  constructor
  · intro hempty
    simp [ShadowRootE, h, hempty]
  · intro hne
    cases hsr : node.shadowRoots with
    | nil => exact absurd hsr hne
    | cons bid rest =>
      cases hrb : env.resolveBackendNode bid with
      | error e => simp [ShadowRootE, h, hsr, hrb]
      | ok objID => simp [ShadowRootE, h, hsr, hrb]

/-- A concrete environment whose described node has no shadow root. -/
def shadowEnvA : ShadowEnv :=
  { describe := .ok { shadowRoots := [] }, resolveBackendNode := fun _ => .ok 0 }

/-- C10 witness: on the concrete no-shadow-root environment, ShadowRootE
reaches the out-of-bounds first-entry access and panics. -/
theorem ShadowRootE_first_entry_witness : ShadowRootE shadowEnvA = .panicked :=
  (ShadowRootE_first_entry shadowEnvA { shadowRoots := [] } rfl).1 rfl

/-! ## Wait state machine: WaitStableE (element.go lines 305-329)

WaitStableE first runs WaitVisibleE; then it takes an initial sample
box := el.Box(), starts a periodic ticker and loops: each iteration
either observes ctx.Done in its select (returning ctx.Err()) or takes
the next sample current := el.Box(), breaks when the previous and the
current sample are equal under Go struct comparison of the four Box
fields, and otherwise continues with current as the new previous sample.
el.Box() lives outside the provided sources; the successive values it
returns are the env's sample sequence (sample 0 is the pre-loop sample,
loop iteration k takes sample k).  Real tick timing is not modelled;
fuel bounds the number of loop iterations examined, and a none result
means the loop is still running after that many iterations. -/

/-- Environment for WaitStableE: the wait-visible outcome, the sample
sequence, the per-iteration cancellation observations, and the value of
ctx.Err(). -/
structure StableEnv where
  waitVisible : Except Err Unit
  samples : ℕ → Box
  cancelledAt : ℕ → Bool
  ctxErr : Err

/-- The ticker loop of WaitStableE, translated from element.go; prev is
the previous sample, k the index of the iteration about to run. -/
def waitStableLoop (env : StableEnv) (prev : Box) (k : ℕ) : ℕ → Option (Except Err Unit)
  | 0 => none
  | fuel + 1 =>
    if env.cancelledAt k then some (.error env.ctxErr)
    else
      let current := env.samples k
      if prev = current then some (.ok ())
      else waitStableLoop env current (k + 1) fuel

/-- WaitStableE translated from element.go: wait for visibility (an
error propagates), take the initial sample, run the ticker loop from
iteration 1. -/
def WaitStableE (env : StableEnv) (fuel : ℕ) : Option (Except Err Unit) :=
  match env.waitVisible with
  | .error e => some (.error e)
  | .ok _ => waitStableLoop env (env.samples 0) 1 fuel

/-- No cancellation is ever observed. -/
def neverCancelled (env : StableEnv) : Prop := ∀ j, env.cancelledAt j = false

/-- k is the first sampling tick at which two consecutive samples
compare equal. -/
def firstStableAt (env : StableEnv) (k : ℕ) : Prop :=
  1 ≤ k ∧ env.samples k = env.samples (k - 1) ∧
    ∀ j, 1 ≤ j → j < k → env.samples j ≠ env.samples (j - 1)

/-- No two consecutive samples ever compare equal. -/
def neverStable (env : StableEnv) : Prop :=
  ∀ j, 1 ≤ j → env.samples j ≠ env.samples (j - 1)

/-- The loop keeps running while every iteration in reach of the fuel is
uncancelled and compares unequal. -/
theorem waitStableLoop_none (env : StableEnv) :
    ∀ fuel k, 1 ≤ k →
      (∀ j, k ≤ j → j < k + fuel →
        env.cancelledAt j = false ∧ env.samples j ≠ env.samples (j - 1)) →
      waitStableLoop env (env.samples (k - 1)) k fuel = none := by
  intro fuel
  induction fuel with
  | zero => intro k _ _; rfl
  | succ n ih =>
    intro k hk h
    have hc : env.cancelledAt k = false := (h k le_rfl (by omega)).1
    have hne : env.samples k ≠ env.samples (k - 1) := (h k le_rfl (by omega)).2
    show waitStableLoop env (env.samples (k - 1)) k (n + 1) = none
    unfold waitStableLoop
    rw [hc]
    simp only [Bool.false_eq_true, if_false]
    rw [if_neg (fun hcontra => hne hcontra.symm)]
    have hk1 : env.samples k = env.samples (k + 1 - 1) := by norm_num
    rw [hk1]
    exact ih (k + 1) (by omega) (fun j hj1 hj2 => h j (by omega) (by omega))

/-- The loop succeeds at the first iteration whose sample equals the
previous one, provided no cancellation interferes up to that point. -/
theorem waitStableLoop_stable (env : StableEnv) :
    ∀ fuel k m, 1 ≤ k → k ≤ m → m < k + fuel →
      (∀ j, k ≤ j → j < m →
        env.cancelledAt j = false ∧ env.samples j ≠ env.samples (j - 1)) →
      env.cancelledAt m = false → env.samples m = env.samples (m - 1) →
      waitStableLoop env (env.samples (k - 1)) k fuel = some (.ok ()) := by
  intro fuel
  induction fuel with
  | zero => intro k m _ _ h; omega
  | succ n ih =>
    intro k m hk hkm hm h hcm hsm
    show waitStableLoop env (env.samples (k - 1)) k (n + 1) = some (.ok ())
    unfold waitStableLoop
    rcases eq_or_lt_of_le hkm with heq | hlt
    · subst heq
      rw [hcm]
      simp only [Bool.false_eq_true, if_false]
      rw [if_pos hsm.symm]
    · have hc : env.cancelledAt k = false := (h k le_rfl hlt).1
      have hne : env.samples k ≠ env.samples (k - 1) := (h k le_rfl hlt).2
      rw [hc]
      simp only [Bool.false_eq_true, if_false]
      rw [if_neg (fun hcontra => hne hcontra.symm)]
      have hk1 : env.samples k = env.samples (k + 1 - 1) := by norm_num
      rw [hk1]
      exact ih (k + 1) m (by omega) (by omega) (by omega)
        (fun j hj1 hj2 => h j (by omega) hj2) hcm hsm

/-- The loop returns ctx.Err() at the first iteration whose select
observes cancellation, provided no earlier iteration stopped it. -/
theorem waitStableLoop_cancel (env : StableEnv) :
    ∀ fuel k c, 1 ≤ k → k ≤ c → c < k + fuel →
      (∀ j, k ≤ j → j < c →
        env.cancelledAt j = false ∧ env.samples j ≠ env.samples (j - 1)) →
      env.cancelledAt c = true →
      waitStableLoop env (env.samples (k - 1)) k fuel = some (.error env.ctxErr) := by
  intro fuel
  induction fuel with
  | zero => intro k c _ _ h; omega
  | succ n ih =>
    intro k c hk hkc hc h hcc
    show waitStableLoop env (env.samples (k - 1)) k (n + 1) = some (.error env.ctxErr)
    unfold waitStableLoop
    rcases eq_or_lt_of_le hkc with heq | hlt
    · subst heq
      rw [hcc]
      simp
    · have hck : env.cancelledAt k = false := (h k le_rfl hlt).1
      have hne : env.samples k ≠ env.samples (k - 1) := (h k le_rfl hlt).2
      rw [hck]
      simp only [Bool.false_eq_true, if_false]
      rw [if_neg (fun hcontra => hne hcontra.symm)]
      have hk1 : env.samples k = env.samples (k + 1 - 1) := by norm_num
      rw [hk1]
      exact ih (k + 1) c (by omega) (by omega) (by omega)
        (fun j hj1 hj2 => h j (by omega) hj2) hcc

/-- C3: after a successful visibility wait, box equality is exact
structural equality of all four fields; with no cancellation the loop
succeeds exactly at the first sampling tick where two consecutive
samples compare equal (and is still running on any smaller fuel); a
sample sequence with no consecutive repeat keeps the loop running for
every fuel; and for such a sequence a cancellation observation is the
only way out, yielding ctx.Err(). -/
theorem WaitStableE_first_stable_tick (env : StableEnv)
    (hwv : env.waitVisible = .ok ()) :
    (∀ b1 b2 : Box, b1 = b2 ↔
        b1.top = b2.top ∧ b1.left = b2.left ∧ b1.width = b2.width ∧ b1.height = b2.height) ∧
      (∀ k, neverCancelled env → firstStableAt env k →
        (∀ fuel, k ≤ fuel → WaitStableE env fuel = some (.ok ())) ∧
          (∀ fuel, fuel < k → WaitStableE env fuel = none)) ∧
      (neverCancelled env → neverStable env → ∀ fuel, WaitStableE env fuel = none) ∧
      (∀ c, 1 ≤ c → env.cancelledAt c = true →
        (∀ j, j < c → env.cancelledAt j = false) → neverStable env →
        ∀ fuel, c ≤ fuel → WaitStableE env fuel = some (.error env.ctxErr)) := by
  have hunfold : ∀ fuel, WaitStableE env fuel = waitStableLoop env (env.samples 0) 1 fuel := by
    intro fuel
    unfold WaitStableE
    rw [hwv]
  have hzero : env.samples 0 = env.samples (1 - 1) := by norm_num
  refine ⟨?_, ?_, ?_, ?_⟩
  · intro b1 b2
    constructor
    · intro h; subst h; exact ⟨rfl, rfl, rfl, rfl⟩
    · obtain ⟨t1, l1, w1, h1⟩ := b1
      obtain ⟨t2, l2, w2, h2⟩ := b2
      rintro ⟨ht, hl, hw, hh⟩
      simp_all
  · intro k hnc hfs
    obtain ⟨hk1, hkeq, hmin⟩ := hfs
    constructor
    · intro fuel hfuel
      rw [hunfold, hzero]
      exact waitStableLoop_stable env fuel 1 k (by omega) (by omega) (by omega)
        (fun j hj1 hj2 => ⟨hnc j, hmin j hj1 hj2⟩) (hnc k) hkeq
    · intro fuel hfuel
      rw [hunfold, hzero]
      exact waitStableLoop_none env fuel 1 (by omega)
        (fun j hj1 hj2 => ⟨hnc j, hmin j hj1 (by omega)⟩)
  · intro hnc hns fuel
    rw [hunfold, hzero]
    exact waitStableLoop_none env fuel 1 (by omega)
      (fun j hj1 hj2 => ⟨hnc j, hns j hj1⟩)
  · intro c hc1 hcc hbefore hns fuel hfuel
    rw [hunfold, hzero]
    exact waitStableLoop_cancel env fuel 1 c (by omega) (by omega) (by omega)
      (fun j hj1 hj2 => ⟨hbefore j hj2, hns j hj1⟩) hcc

/-- A concrete environment for WaitStableE: samples 0 is the zero box
and every later sample is the unit box, so the first consecutive repeat
is at sampling tick 2; cancellation never fires. -/
def stableEnvA : StableEnv :=
  { waitVisible := .ok ()
    samples := fun k => if k = 0 then { top := 0, left := 0, width := 0, height := 0 }
      else { top := 1, left := 1, width := 1, height := 1 }
    cancelledAt := fun _ => false
    ctxErr := 3 }

/-- C3 witness: on the concrete environment the loop is still running
after one iteration and returns success at the second. -/
theorem WaitStableE_first_stable_tick_witness :
    WaitStableE stableEnvA 2 = some (.ok ()) ∧ WaitStableE stableEnvA 1 = none := by
  have h := WaitStableE_first_stable_tick stableEnvA rfl
  have hnc : neverCancelled stableEnvA := fun j => rfl
  have hfs : firstStableAt stableEnvA 2 := by
    refine ⟨by omega, by decide, ?_⟩
    intro j hj1 hj2
    have hj : j = 1 := by omega
    subst hj
    decide
  exact ⟨(h.2.1 2 hnc hfs).1 2 le_rfl, (h.2.1 2 hnc hfs).2 1 (by omega)⟩

/-! ## Wait state machine: WaitE (element.go lines 332-345)

WaitE hands a closure to the external retry driver (kit.Retry with the
package sleeper).  The closure evaluates the predicate script: an
evaluation error stops the retry with that error, a true value stops it
with success, a false value requests another attempt. -/

/-- Environment for WaitE: the outcome each successive predicate
evaluation would produce, the cancellation observations of the retry
driver, and the value of ctx.Err(). -/
structure WaitEnv where
  evalResult : ℕ → Except Err Bool
  cancelledAt : ℕ → Bool
  ctxErr : Err

/-- The closure WaitE passes to the retry driver, translated from
element.go: the pair (stop, error) for attempt k. -/
def waitAttempt (env : WaitEnv) (k : ℕ) : Bool × Option Err :=
  match env.evalResult k with
  | .error e => (true, some e)
  | .ok b => if b then (true, none) else (false, none)

/-- Modelled from the spec: the external retry driver (kit.Retry) runs
the attempts with a fixed retry-with-sleep policy, stopping when the
execution scope is cancelled (returning ctx.Err()) or when an attempt
asks to stop (returning that attempt's error value, nil included), and
sleeping before the next attempt otherwise.  fuel bounds the attempts
examined; none means the loop is still retrying. -/
def retryLoop (env : WaitEnv) (k : ℕ) : ℕ → Option (Option Err)
  | 0 => none
  | fuel + 1 =>
    if env.cancelledAt k then some (some env.ctxErr)
    else
      let a := waitAttempt env k
      if a.1 then some a.2
      else retryLoop env (k + 1) fuel

/-- WaitE translated from element.go: run the retry driver on the
predicate closure from attempt 0. -/
def WaitE (env : WaitEnv) (fuel : ℕ) : Option (Option Err) :=
  retryLoop env 0 fuel

/-- The outcome the retry stops with at the first decisive attempt:
ctx.Err() on cancellation, the evaluation error on an evaluation
failure, success on a true predicate value. -/
def decisiveOut (env : WaitEnv) (m : ℕ) : Option Err :=
  if env.cancelledAt m then some env.ctxErr
  else
    match env.evalResult m with
    | .error e => some e
    | .ok _ => none

/-- The retry loop runs past false attempts and stops at the first
decisive one with its outcome. -/
theorem retryLoop_decisive (env : WaitEnv) :
    ∀ fuel k m, k ≤ m → m < k + fuel →
      (∀ j, k ≤ j → j < m →
        env.cancelledAt j = false ∧ env.evalResult j = .ok false) →
      (env.cancelledAt m = true ∨ env.evalResult m ≠ .ok false) →
      retryLoop env k fuel = some (decisiveOut env m) := by
  intro fuel
  induction fuel with
  | zero => intro k m _ h; omega
  | succ n ih =>
    intro k m hkm hm h hdec
    show retryLoop env k (n + 1) = some (decisiveOut env m)
    unfold retryLoop
    rcases eq_or_lt_of_le hkm with heq | hlt
    · subst heq
      cases hck : env.cancelledAt k with
      | true => simp [decisiveOut, hck]
      | false =>
        simp only [Bool.false_eq_true, if_false]
        rcases hdec with hd | hd
        · rw [hck] at hd; cases hd
        · cases hev : env.evalResult k with
          | error e => simp [waitAttempt, decisiveOut, hck, hev]
          | ok b =>
            cases b with
            | false => rw [hev] at hd; exact absurd rfl hd
            | true => simp [waitAttempt, decisiveOut, hck, hev]
    · have hck : env.cancelledAt k = false := (h k le_rfl hlt).1
      have hev : env.evalResult k = .ok false := (h k le_rfl hlt).2
      rw [hck]
      simp only [Bool.false_eq_true, if_false]
      have ha : waitAttempt env k = (false, none) := by
        unfold waitAttempt
        rw [hev]
        rfl
      rw [ha]
      simp only [if_false]
      exact ih (k + 1) m (by omega) (by omega) (fun j hj1 hj2 => h j (by omega) hj2) hdec

/-- The retry loop keeps retrying while every attempt in reach of the
fuel is uncancelled and evaluates to false. -/
theorem retryLoop_absorbs_false (env : WaitEnv) :
    ∀ fuel k, (∀ j, env.cancelledAt j = false) → (∀ j, env.evalResult j = .ok false) →
      retryLoop env k fuel = none := by
  intro fuel
  induction fuel with
  | zero => intro k _ _; rfl
  | succ n ih =>
    intro k hc he
    show retryLoop env k (n + 1) = none
    unfold retryLoop
    rw [hc k]
    simp only [Bool.false_eq_true, if_false]
    have ha : waitAttempt env k = (false, none) := by
      unfold waitAttempt
      rw [he k]
      rfl
    rw [ha]
    simp only [if_false]
    exact ih (k + 1) hc he

/-- C6: the poll loop retries forever on a predicate that always
evaluates to false without cancellation; and, after any finite prefix of
uncancelled false evaluations, it terminates exactly at the first
decisive attempt — with success on a true predicate value, with the
evaluation error itself (propagated unchanged) on an evaluation failure,
and with ctx.Err() on cancellation. -/
theorem WaitE_poll_termination (env : WaitEnv) :
    ((∀ j, env.cancelledAt j = false) → (∀ j, env.evalResult j = .ok false) →
        ∀ fuel, WaitE env fuel = none) ∧
      (∀ m, (∀ j, j < m → env.cancelledAt j = false ∧ env.evalResult j = .ok false) →
        (env.cancelledAt m = false → env.evalResult m = .ok true →
            ∀ fuel, m < fuel → WaitE env fuel = some none) ∧
          (∀ e, env.cancelledAt m = false → env.evalResult m = .error e →
            ∀ fuel, m < fuel → WaitE env fuel = some (some e)) ∧
          (env.cancelledAt m = true →
            ∀ fuel, m < fuel → WaitE env fuel = some (some env.ctxErr))) := by
  constructor
  · intro hc he fuel
    exact retryLoop_absorbs_false env fuel 0 hc he
  · intro m hpre
    have hrun : ∀ fuel, m < fuel →
        (env.cancelledAt m = true ∨ env.evalResult m ≠ .ok false) →
        WaitE env fuel = some (decisiveOut env m) := by
      intro fuel hfuel hdec
      exact retryLoop_decisive env fuel 0 m (by omega) (by omega)
        (fun j _ hj2 => hpre j hj2) hdec
    refine ⟨?_, ?_, ?_⟩
    · intro hcm hev fuel hfuel
      have := hrun fuel hfuel (Or.inr (by rw [hev]; simp))
      rw [this]
      simp [decisiveOut, hcm, hev]
    · intro e hcm hev fuel hfuel
      have := hrun fuel hfuel (Or.inr (by rw [hev]; simp))
      rw [this]
      simp [decisiveOut, hcm, hev]
    · intro hcm fuel hfuel
      have := hrun fuel hfuel (Or.inl hcm)
      rw [this]
      simp [decisiveOut, hcm]

/-- A concrete environment for WaitE: the predicate evaluates to false
at attempt 0 and to true at attempt 1; cancellation never fires. -/
def waitEnvA : WaitEnv :=
  { evalResult := fun k => if k = 0 then .ok false else .ok true
    cancelledAt := fun _ => false
    ctxErr := 7 }

/-- A concrete environment for WaitE: the predicate evaluation fails
with error 9 at attempt 0. -/
def waitEnvB : WaitEnv :=
  { evalResult := fun _ => .error 9
    cancelledAt := fun _ => false
    ctxErr := 7 }

/-- C6 witness: on the first environment the poll absorbs the false
attempt and succeeds at the true one; on the second the evaluation
error is propagated unchanged. -/
theorem WaitE_poll_termination_witness :
    WaitE waitEnvA 2 = some none ∧ WaitE waitEnvB 1 = some (some 9) := by
  constructor
  · have h := (WaitE_poll_termination waitEnvA).2 1
      (fun j hj => by
        have hj0 : j = 0 := by omega
        subst hj0
        exact ⟨rfl, rfl⟩)
    exact h.1 rfl rfl 2 (by omega)
  · have h := (WaitE_poll_termination waitEnvB).2 0 (fun j hj => by omega)
    exact h.2.1 9 rfl rfl 1 (by omega)

/-! ## Frame resolution engine: ensureParentPage (element.go lines 495-544)

ensureParentPage checks hasElement on the current page and, when the
handle does not resolve there, runs a recursive DFS walk over the frame
tree.  For each iframe element f of a page, in document order, the walk
builds the nested frame context p := f.Frame(), resolves the target
nodeID there (an error returns immediately; a non-empty object ID
rebinds el.page and el.ObjectID and returns the io.EOF sentinel), and
otherwise runs err = walk(p) — whose result is immediately overwritten
by err = f.ReleaseE(), followed by two identical checks of that release
error — before moving to the next sibling.

The page registry collaborators (hasElement, ElementsE, resolveNode,
Frame) live outside the provided sources; modelled from the spec, their
outcomes are recorded in the tree: each iframe element carries its
handle identity, the outcome of resolving the nodeID in its nested
frame context, the outcome of releasing its handle, and the outcome of
enumerating the iframe elements of its nested frame context in document
order. -/

/-- An iframe element of the frame tree together with the outcomes its
collaborator calls would produce. -/
inductive IFrame where
  | mk (fid : ℕ) (resolve : Except Err (Option ℕ)) (rel : Except Err Unit)
      (elems : Except Err (List IFrame))

/-- State threaded through the walk: the handles on which a release call
was issued, in order; the iframe elements visited (those whose nested
frame context had the nodeID resolved), in order; and the element's
current binding — none for the original one, some (fid, objID) after a
rebind to the nested frame context of iframe fid with handle objID. -/
structure WalkState where
  releases : List ℕ
  visited : List ℕ
  binding : Option (ℕ × ℕ)

deriving instance DecidableEq, Repr for WalkState

/-- Outcome of one walk call: the io.EOF sentinel, a normal nil return,
or an error. -/
inductive WalkOut where
  | eof
  | done
  | err (e : Err)

deriving instance DecidableEq, Repr for WalkOut

mutual

/-- The loop body of walk for one iframe element, translated from
element.go.  In the not-found branch the recursive outcome of walk(p)
is discarded because the code overwrites err with f.ReleaseE() before
checking it; only the recursion's state effects survive, and a done
outcome tells the caller to continue with the next sibling. -/
def walkFrame (f : IFrame) (s : WalkState) : WalkState × WalkOut :=
  match f with
  | .mk fid resolve rel elems =>
    let s0 : WalkState := { s with visited := s.visited ++ [fid] }
    match resolve with
    | .error e => (s0, .err e)
    | .ok (some objID) => ({ s0 with binding := some (fid, objID) }, .eof)
    | .ok none =>
      let s1 := (walkPage elems s0).1
      let s2 : WalkState := { s1 with releases := s1.releases ++ [fid] }
      match rel with
      | .error e => (s2, .err e)
      | .ok _ => (s2, .done)

/-- The loop of walk over the iframe elements of one page: a done
outcome continues with the next sibling, anything else returns. -/
def walkList (l : List IFrame) (s : WalkState) : WalkState × WalkOut :=
  match l with
  | [] => (s, .done)
  | f :: rest =>
    match walkFrame f s with
    | (s1, .done) => walkList rest s1
    | (s1, out) => (s1, out)

/-- One walk call on a page: a failing iframe enumeration returns its
error, otherwise the loop runs over the enumerated iframe elements. -/
def walkPage (elems : Except Err (List IFrame)) (s : WalkState) : WalkState × WalkOut :=
  match elems with
  | .error e => (s, .err e)
  | .ok l => walkList l s

end

/-- Environment for ensureParentPage: the outcome of hasElement on the
element's current page, and the outcome of enumerating the iframe
elements of that page. -/
structure EnsureEnv where
  hasElement : Except Err Bool
  topElems : Except Err (List IFrame)

/-- The walk starts with no releases, no visits and the original
binding. -/
def emptyWalkState : WalkState := { releases := [], visited := [], binding := none }

/-- ensureParentPage translated from element.go: a hasElement error
propagates; a present handle is a no-op; otherwise the walk runs from
the current page, the io.EOF sentinel maps to a nil return, a nil walk
return stays nil, and a walk error propagates. -/
def ensureParentPage (env : EnsureEnv) : WalkState × Except Err Unit :=
  match env.hasElement with
  | .error e => (emptyWalkState, .error e)
  | .ok true => (emptyWalkState, .ok ())
  | .ok false =>
    match walkPage env.topElems emptyWalkState with
    | (s, .eof) => (s, .ok ())
    | (s, .done) => (s, .ok ())
    | (s, .err e) => (s, .error e)

/-- Frame tree for the C1 failing input: the current page has two iframe
elements in document order, iframe 1 (whose nested frame context does
not hold the node but contains iframe 2, where the node resolves to
handle 42) and its later sibling iframe 3. -/
def ensureEnvC1 : EnsureEnv :=
  { hasElement := .ok false
    topElems := .ok
      [.mk 1 (.ok none) (.ok ()) (.ok [.mk 2 (.ok (some 42)) (.ok ()) (.ok [])])
      , .mk 3 (.ok none) (.ok ()) (.ok [])] }

/-- C1 failing-input evaluation: the node resolves in iframe 2 at depth
two and the element is rebound there, yet the walk does not stop — the
io.EOF sentinel of the recursive call is overwritten by iframe 1's
release result, so the later sibling iframe 3 is still visited after
the match. -/
theorem ensureParentPage_depth2_keeps_searching :
    ensureParentPage ensureEnvC1 =
      ({ releases := [1, 3], visited := [1, 2, 3], binding := some (2, 42) }, .ok ()) ∧
      (ensureParentPage ensureEnvC1).1.visited ≠ [1, 2] := by
  constructor
  · rfl
  · decide

/-- Frame tree for the C2 failing input: the current page has a single
iframe element 1 whose nested frame context contains iframe 2, and
resolving the nodeID in iframe 2's nested frame context fails with
error 13. -/
def ensureEnvC2 : EnsureEnv :=
  { hasElement := .ok false
    topElems := .ok [.mk 1 (.ok none) (.ok ()) (.ok [.mk 2 (.error 13) (.ok ()) (.ok [])])] }

/-- C2 failing-input evaluation: resolving the node in iframe 2 fails,
yet the walk neither releases iframe 2's temporary handle (only iframe 1
appears in the release list although both were visited) nor propagates
the error — the overwrite of err by f.ReleaseE() swallows it and
ensureParentPage returns success. -/
theorem ensureParentPage_resolve_error_leaks :
    ensureParentPage ensureEnvC2 =
      ({ releases := [1], visited := [1, 2], binding := none }, .ok ()) ∧
      2 ∉ (ensureParentPage ensureEnvC2).1.releases := by
  constructor
  · rfl
  · decide

end Rod
